import Mathlib

/-!
# Verification of the `ntrip_client` connection lifecycle

A shallow embedding of the NTRIP client (`ntrip_client.h` / the client
translation unit) into Lean 4, together with theorems settling the spec's
claims about it.

Modelling conventions:

* `std::string` values become `List Char` (for text) or `List Nat` (for raw
  bytes, each `< 256`).
* The C `int` accumulator of `base64_encode` wraps at 32 bits; the embedding
  keeps it as a `Nat` reduced `% 4294967296` exactly where the C shifts can
  overflow.  `x >> k` becomes `x / 2 ^ k` and `x & 0x3F` becomes `x % 64`.
* The client object is a structure holding every field of the C++ class; the
  OS-visible effect of `close(sockfd_)` is recorded in a ghost flag
  `sockOpen`, and the live worker thread in a ghost flag `threadActive`
  (`std::thread` construction / `join`).
* Socket I/O is nondeterministic environment input: each `recv`/`send`
  outcome the code branches on is a parameter or an element of an event
  trace.  A loop given a finite trace either returns a result or, when the
  trace is exhausted while the loop would keep iterating, reports that it is
  still looping (`none` / `stillPolling`).
-/

/-! ## Base64 encoder (`base64_encode` and its table `b`) -/

/-- The encoder table, `static const std::string b` in the source. -/
def b64chars : List Char :=
  "ABCDEFGHIJKLMNOPQRSTUVWXYZabcdefghijklmnopqrstuvwxyz0123456789+/".toList

/-- `b[i]` — indexing into the table (all source indices are `< 64`). -/
def b64nth (i : Nat) : Char := b64chars.getD i 'A'

/-- One pass of the inner `while (valb >= 0)` loop of `base64_encode`:
emit `b[(val >> valb) & 0x3F]` and decrease `valb` by 6 while `valb ≥ 0`.
The fuel argument only bounds the recursion; `emitF` is always applied with
fuel `(valb + 6).toNat`, which exceeds the iteration count of the C loop, so
the two agree (when the fuel runs out the guard is already false). -/
def emitF : Nat → Nat → Int → List Char
  | 0, _, _ => []
  | fuel + 1, val, valb =>
    if 0 ≤ valb then b64nth (val / 2 ^ valb.toNat % 64) :: emitF fuel val (valb - 6)
    else []

/-- The value of `valb` after the inner `while` loop (same fuel discipline). -/
def dropBitsF : Nat → Int → Int
  | 0, valb => valb
  | fuel + 1, valb => if 0 ≤ valb then dropBitsF fuel (valb - 6) else valb

/-- The `for (u_char c : in)` loop of `base64_encode`: threads `(val, valb)`
through the input and collects the emitted characters, returning the final
accumulator as well.  `val = (val << 8) + c` wraps at 32 bits. -/
def b64run : List Nat → Nat → Int → List Char × Nat × Int
  | [], val, valb => ([], val, valb)
  | c :: cs, val, valb =>
    let val' := (val * 256 + c) % 4294967296
    let valb' := valb + 8
    let emitted := emitF (valb' + 6).toNat val' valb'
    let rest := b64run cs val' (dropBitsF (valb' + 6).toNat valb')
    (emitted ++ rest.1, rest.2)

/-- `base64_encode`, generalized over the initial accumulator `val` (the
source starts at `val = 0`; the generalization is what the chunk-recursion
proof threads through).  After the loop: the `if (valb > -6)` tail character
`b[((val << 8) >> (valb + 8)) & 0x3F]`, then `'='` padding until the length
is a multiple of 4 (the source's `while (out.size()%4)`). -/
def encodeFrom (val : Nat) (input : List Nat) : List Char :=
  let r := b64run input val (-6)
  let out :=
    if r.2.2 > -6 then
      r.1 ++ [b64nth (r.2.1 * 256 % 4294967296 / 2 ^ (r.2.2 + 8).toNat % 64)]
    else r.1
  out ++ List.replicate ((4 - out.length % 4) % 4) '='

/-- `base64_encode` of the source: the run starts with `val = 0, valb = -6`. -/
def base64_encode (input : List Nat) : List Char := encodeFrom 0 input

/-! ### Standard Base64 decoder (the spec side of claim C4) -/

/-- Index of a character in the Base64 table (0 if absent; the decoder is
only ever applied to characters produced by the encoder). -/
def b64idx : List Char → Char → Nat
  | [], _ => 0
  | t :: ts, c => if t = c then 0 else 1 + b64idx ts c

/-- The 6-bit value of a Base64 alphabet character. -/
def b64val (c : Char) : Nat := b64idx b64chars c

/-- Standard streaming Base64 decoder core: shift each 6-bit value into an
accumulator and emit a byte whenever 8 or more bits are available. -/
def decodeCore : List Char → Nat → Nat → List Nat
  | [], _, _ => []
  | c :: cs, val, nbits =>
    let val' := val * 64 + b64val c
    let nbits' := nbits + 6
    if 8 ≤ nbits' then val' / 2 ^ (nbits' - 8) % 256 :: decodeCore cs val' (nbits' - 8)
    else decodeCore cs val' nbits'

/-- Standard Base64 decoding: drop `'='` padding, then decode 6-bit groups. -/
def base64_decode (s : List Char) : List Nat :=
  decodeCore (s.filter (fun c => c ≠ '=')) 0 0

/-! ## The client state and its operations -/

/-- Linux value of `EAGAIN`. -/
def EAGAIN : Nat := 11

/-- Linux value of `EWOULDBLOCK` (same as `EAGAIN`). -/
def EWOULDBLOCK : Nat := 11

/-- Linux value of `EINTR`. -/
def EINTR : Nat := 4

/-- `constexpr int socket_timeout = 50;` — the handshake retry budget. -/
def socket_timeout : Nat := 50

/-- The fields of `class NtripClient`, plus the two ghost flags `sockOpen`
(the OS-level socket produced by `socket()` has not been `close`d) and
`threadActive` (`thread_` holds a joinable worker). -/
structure NtripClient where
  host : List Char
  port : List Char
  mountpoint : List Char
  username : List Char
  password : List Char
  sockfd : Int
  gga : List Char
  initialized : Bool
  connected : Bool
  authenticated : Bool
  running : Bool
  sockOpen : Bool
  threadActive : Bool
deriving DecidableEq

/-- `NtripClient::IsRunning` — `return running_;`. -/
def NtripClient.IsRunning (s : NtripClient) : Bool := s.running

/-- `NtripClient::UpdateGGA` — `gga_buffer_ = gga;`. -/
def NtripClient.UpdateGGA (s : NtripClient) (gga : List Char) : NtripClient :=
  { s with gga := gga }

/-- `NtripClient::Init` — overwrite the connection details, set
`initialized_`, return `true`. -/
def NtripClient.Init (s : NtripClient)
    (host port mountpoint username password : List Char) : NtripClient × Bool :=
  ({ s with host := host, port := port, mountpoint := mountpoint,
            username := username, password := password, initialized := true }, true)

/-- `NtripClient::Stop` — only when `running_`: clear the flag, join the
thread, `close(sockfd_)` (the descriptor value itself is not reset). -/
def NtripClient.Stop (s : NtripClient) : NtripClient :=
  if s.running then { s with running := false, threadActive := false, sockOpen := false }
  else s

/-- `NtripClient::Cleanup` — `if (sockfd_ > 0) { close(sockfd_); sockfd_ = -1; }`.
Note the strict guard: descriptor `0` is left untouched. -/
def NtripClient.Cleanup (s : NtripClient) : NtripClient :=
  if s.sockfd > 0 then { s with sockOpen := false, sockfd := -1 } else s

/-! ### The handshake poll loop of `Run` -/

/-- The success patterns searched for in the handshake response. -/
def okHTTP : List Char := "HTTP/1.1 200 OK".toList

/-- The ICY variant of the success pattern. -/
def okICY : List Char := "ICY 200 OK".toList

/-- Does `pat` match at the head of `s`? -/
def leadMatch : List Char → List Char → Bool
  | [], _ => true
  | _ :: _, [] => false
  | p :: ps, c :: cs => p = c && leadMatch ps cs

/-- `std::string::find(pat) != npos`: does `pat` occur (contiguously)
anywhere in `s`? -/
def hasSubstr (pat : List Char) : List Char → Bool
  | [] => leadMatch pat []
  | c :: cs => leadMatch pat (c :: cs) || hasSubstr pat cs

/-- One `recv` outcome inside the handshake poll loop.  `recvData r` is a
receive returning `r.length` (so `recvData []` is the zero-byte return, the
peer having closed); `recvErr` is any negative return (the loop only logs
`ret`, never reads `errno`). -/
inductive PollEvent where
  | recvData (r : List Char)
  | recvErr
deriving DecidableEq

/-- Outcome of one iteration of the poll loop body. -/
inductive StepOut where
  | next (s : NtripClient)
  | exitBreak (s : NtripClient)
  | exitReturn (s : NtripClient) (b : Bool)
deriving DecidableEq

/-- The state carried by a `StepOut`. -/
def StepOut.state : StepOut → NtripClient
  | .next s => s
  | .exitBreak s => s
  | .exitReturn s _ => s

/-- The body of the handshake poll loop of `Run` (lines 200–234).
`ggaRet` is the result the environment gives the single `send` of the GGA
buffer that can happen on a successful response. -/
def pollStep (ggaRet : Int) (s : NtripClient) : PollEvent → StepOut
  | .recvData r =>
    if 0 < r.length then
      if hasSubstr okHTTP r || hasSubstr okICY r then
        let s1 := { s with authenticated := true }
        if s1.gga ≠ [] then
          if ggaRet ≤ 0 then .exitReturn { s1 with sockOpen := false } false
          else .exitBreak s1
        else .exitBreak s1
      else .next s
    else .exitReturn { s with sockOpen := false } false
  | .recvErr => .next s

/-- Result of running the poll loop over a finite event trace. -/
inductive PollResult where
  | stillPolling (s : NtripClient)
  | finished (s : NtripClient) (b : Bool)
  | brokeOut (s : NtripClient) (timeout : Nat)
  | guardExit (s : NtripClient) (timeout : Nat)
deriving DecidableEq

/-- `while (timeout < socket_timeout) { ... }` over an event trace.  The
source never increments `timeout`, and neither does this model: the
`timeout` parameter is passed through unchanged, exactly as in the code.
An exhausted trace with the guard still true means the loop is still
polling. -/
def pollLoop (ggaRet : Int) (timeout : Nat) (s : NtripClient) :
    List PollEvent → PollResult
  | [] => if timeout < socket_timeout then .stillPolling s else .guardExit s timeout
  | ev :: rest =>
    if timeout < socket_timeout then
      match pollStep ggaRet s ev with
      | .next s' => pollLoop ggaRet timeout s' rest
      | .exitBreak s' => .brokeOut s' timeout
      | .exitReturn s' b => .finished s' b
    else .guardExit s timeout

/-- Environment inputs consumed by one call to `Run`: the result of address
resolution, of `socket()`, of `connect()`, of the handshake-request `send`,
the trace of `recv` outcomes seen by the poll loop and the result of the one
possible GGA `send` inside it. -/
structure RunEnv where
  resolveOk : Bool
  socketRet : Int
  connectOk : Bool
  sendReqRet : Int
  pollEvents : List PollEvent
  ggaSendRet : Int
deriving DecidableEq

/-- `NtripClient::Run` (lines 137–258).  Returns the updated client and
`some b` when the function returned `b`, or `none` when the poll loop is
still running after its whole event trace (the silent-server case: the
source's loop has no exit for it).  After a `break` the source re-tests
`timeout >= socket_timeout` and only then sets `running_` and starts the
worker thread. -/
def NtripClient.Run (s : NtripClient) (env : RunEnv) : NtripClient × Option Bool :=
  let s := if s.IsRunning then s.Stop else s
  if !env.resolveOk then (s, some false)
  else
    let s := { s with sockfd := env.socketRet, sockOpen := decide (0 ≤ env.socketRet) }
    if env.socketRet < 0 then (s, some false)
    else if !env.connectOk then ({ s with sockOpen := false }, some false)
    else
      let s := { s with connected := true }
      if env.sendReqRet ≤ 0 then ({ s with sockOpen := false }, some false)
      else
        match pollLoop env.ggaSendRet 0 s env.pollEvents with
        | .stillPolling s' => (s', none)
        | .finished s' b => (s', some b)
        | .guardExit s' t =>
          if socket_timeout ≤ t then ({ s' with sockOpen := false }, some false)
          else ({ s' with running := true, threadActive := true }, some true)
        | .brokeOut s' t =>
          if socket_timeout ≤ t then ({ s' with sockOpen := false }, some false)
          else ({ s' with running := true, threadActive := true }, some true)

/-! ### The streaming loop (`ThreadHandler`) -/

/-- Environment inputs for one iteration of the streaming loop.  `stopReq`
models a concurrent `Stop()` clearing `running_` before this iteration's
`while (running_)` test; `recvRet`/`errnoVal` are the `recv` result and the
`errno` it left; `elapsed` is whether the 1000 ms reporting interval fired;
`sendRet` the result of the GGA `send` when one happens. -/
structure ThreadIter where
  stopReq : Bool
  recvRet : Int
  errnoVal : Nat
  elapsed : Bool
  sendRet : Int
deriving DecidableEq

/-- The `while (running_)` loop of `ThreadHandler` (lines 342–379) over a
finite iteration trace.  A fatal receive is `ret < 0` with `errno` outside
`{0, EAGAIN, EWOULDBLOCK, EINTR}` (note the source's extra `errno != 0`
conjunct); `ret == 0` and data receives only log.  On the reporting interval
a nonempty GGA buffer is sent and a negative send result is fatal.  `none`
means the trace ended with the loop still iterating; loop exit via
`running_ == false` runs `Cleanup` and returns `true`. -/
def thLoop (s : NtripClient) : List ThreadIter → NtripClient × Option Bool
  | [] => (s, none)
  | it :: rest =>
    let s0 := if it.stopReq then { s with running := false } else s
    if !s0.running then (s0.Cleanup, some true)
    else if it.recvRet < 0 &&
        !(it.errnoVal = 0 || it.errnoVal = EAGAIN || it.errnoVal = EWOULDBLOCK ||
          it.errnoVal = EINTR) then
      (s0.Cleanup, some false)
    else if it.elapsed && s0.gga ≠ [] && it.sendRet < 0 then
      (s0.Cleanup, some false)
    else thLoop s0 rest

/-- `NtripClient::ThreadHandler` (lines 307–384): the four entry
preconditions (initialized, connected, authenticated, non-negative socket),
each failing one running `Cleanup` and returning `false`, then the loop. -/
def NtripClient.ThreadHandler (s : NtripClient) (iters : List ThreadIter) :
    NtripClient × Option Bool :=
  if !s.initialized then (s.Cleanup, some false)
  else if !s.connected then (s.Cleanup, some false)
  else if !s.authenticated then (s.Cleanup, some false)
  else if s.sockfd < 0 then (s.Cleanup, some false)
  else thLoop s iters

/-! ## Theorems -/

/-! ### C10 — `Stop` on a non-running client is a no-op -/

/-- C10: calling `Stop()` when the client is not running (`IsRunning()` is
false) performs no action: no thread is joined, no socket is closed, and
every field of the client is left unchanged. -/
theorem stop_noop_when_not_running (s : NtripClient)
    (h : NtripClient.IsRunning s = false) : NtripClient.Stop s = s := by
  unfold NtripClient.Stop
  simp only [NtripClient.IsRunning] at h
  simp [h]

/-- Concrete client for the C10 witness. -/
def c10s : NtripClient :=
  { host := [], port := [], mountpoint := [], username := [], password := [],
    sockfd := 7, gga := ['x'], initialized := true, connected := true,
    authenticated := true, running := false, sockOpen := true, threadActive := false }

/-- Witness for C10 at a concrete stopped-but-connected client. -/
theorem stop_noop_when_not_running_witness :
    NtripClient.IsRunning c10s = false ∧ NtripClient.Stop c10s = c10s :=
  ⟨by decide, stop_noop_when_not_running c10s (by decide)⟩

/-! ### C7 — zero-byte receive in the streaming loop is non-fatal -/

/-- C7: in the streaming loop, a receive returning zero bytes (peer closed)
is logged and non-fatal: the loop continues to its next iteration with the
client unchanged — in particular the socket is not closed and the handler
does not terminate on this iteration. -/
theorem streaming_zero_recv_continues (s : NtripClient) (it : ThreadIter)
    (rest : List ThreadIter) (hrun : s.running = true) (hstop : it.stopReq = false)
    (hz : it.recvRet = 0) (hel : it.elapsed = false) :
    thLoop s (it :: rest) = thLoop s rest := by
  simp [thLoop, hstop, hrun, hz, hel]

/-- Concrete streaming client for the C7 witness. -/
def c7s : NtripClient :=
  { host := [], port := [], mountpoint := [], username := [], password := [],
    sockfd := 3, gga := [], initialized := true, connected := true,
    authenticated := true, running := true, sockOpen := true, threadActive := true }

/-- Concrete zero-byte iteration for the C7 witness. -/
def c7it : ThreadIter :=
  { stopReq := false, recvRet := 0, errnoVal := 0, elapsed := false, sendRet := 0 }

/-- Witness for C7: a concrete zero-byte iteration just advances the loop. -/
theorem streaming_zero_recv_continues_witness :
    (c7s.running = true ∧ c7it.stopReq = false ∧ c7it.recvRet = 0 ∧
      c7it.elapsed = false) ∧
    thLoop c7s [c7it] = thLoop c7s [] :=
  ⟨by decide,
   streaming_zero_recv_continues c7s c7it [] (by decide) (by decide) (by decide)
     (by decide)⟩

/-! ### C8 — zero-byte receive during the handshake is an immediate failure -/

/-- Run environment for C8: the first poll event is a zero-byte receive. -/
def c8env (fd sr g : Int) (rest : List PollEvent) : RunEnv :=
  { resolveOk := true, socketRet := fd, connectOk := true, sendReqRet := sr,
    pollEvents := .recvData [] :: rest, ggaSendRet := g }

/-- C8: during the handshake poll, a receive returning zero bytes makes the
loop return failure at once — the socket is closed and `Run` returns
`false` — regardless of how many retry attempts remain in the trace. -/
theorem handshake_peer_close_immediate_failure
    (s : NtripClient) (fd sr g : Int) (rest : List PollEvent) (t : Nat)
    (hrun : s.running = false) (hfd : 0 ≤ fd) (hsr : 0 < sr)
    (ht : t < socket_timeout) :
    (∀ s' : NtripClient, pollLoop g t s' (.recvData [] :: rest) =
      .finished { s' with sockOpen := false } false) ∧
    (NtripClient.Run s (c8env fd sr g rest)).2 = some false ∧
    (NtripClient.Run s (c8env fd sr g rest)).1.sockOpen = false := by
  have hstep : ∀ s' : NtripClient, pollLoop g t s' (.recvData [] :: rest) =
      .finished { s' with sockOpen := false } false := by
    intro s'
    simp [pollLoop, ht, pollStep]
  refine ⟨hstep, ?_⟩
  have hfd' : ¬ fd < 0 := by omega
  have hsr' : ¬ sr ≤ 0 := by omega
  unfold NtripClient.Run c8env
  simp [NtripClient.IsRunning, hrun, hfd', hsr', pollLoop, pollStep, socket_timeout]

/-- Concrete client for the C8 witness. -/
def c8s : NtripClient :=
  { host := [], port := [], mountpoint := [], username := [], password := [],
    sockfd := -1, gga := [], initialized := true, connected := false,
    authenticated := false, running := false, sockOpen := false, threadActive := false }

/-- Witness for C8 at a concrete client and environment. -/
theorem handshake_peer_close_immediate_failure_witness :
    (c8s.running = false ∧ (0 : Int) ≤ 3 ∧ (0 : Int) < 1 ∧ 0 < socket_timeout) ∧
    ((∀ s' : NtripClient, pollLoop 1 0 s' (.recvData [] :: []) =
        .finished { s' with sockOpen := false } false) ∧
      (NtripClient.Run c8s (c8env 3 1 1 [])).2 = some false ∧
      (NtripClient.Run c8s (c8env 3 1 1 [])).1.sockOpen = false) :=
  ⟨by decide,
   handshake_peer_close_immediate_failure c8s 3 1 1 [] 0 (by decide) (by decide)
     (by decide) (by decide)⟩

/-! ### C5 — handshake success detection is exactly the substring test -/

/-- C5: during the handshake poll, a received chunk sets the authenticated
state exactly when it contains `"HTTP/1.1 200 OK"` or `"ICY 200 OK"` as a
substring; any other non-empty chunk leaves the state unchanged and the
polling continues with the next attempt. -/
theorem handshake_success_iff_substring (g : Int) (s : NtripClient)
    (r : List Char) (hr : r ≠ []) (ha : s.authenticated = false) :
    ((pollStep g s (.recvData r)).state.authenticated = true ↔
      (hasSubstr okHTTP r = true ∨ hasSubstr okICY r = true)) ∧
    (hasSubstr okHTTP r = false → hasSubstr okICY r = false →
      pollStep g s (.recvData r) = .next s) := by
  have hlen : 0 < r.length := List.length_pos.mpr hr
  constructor
  · by_cases hg : s.gga = [] <;> by_cases hgr : g ≤ 0 <;>
      cases hh : hasSubstr okHTTP r <;> cases hi : hasSubstr okICY r <;>
      simp [pollStep, hlen, hh, hi, hg, hgr, StepOut.state, ha]
  · intro hh hi
    simp [pollStep, hlen, hh, hi]

/-- Concrete client for the C5 witness. -/
def c5s : NtripClient :=
  { host := [], port := [], mountpoint := [], username := [], password := [],
    sockfd := 3, gga := [], initialized := true, connected := true,
    authenticated := false, running := false, sockOpen := true, threadActive := false }

/-- Witness for C5 at a concrete chunk containing the ICY success marker. -/
theorem handshake_success_iff_substring_witness :
    (okICY ≠ [] ∧ c5s.authenticated = false) ∧
    (((pollStep 1 c5s (.recvData okICY)).state.authenticated = true ↔
        (hasSubstr okHTTP okICY = true ∨ hasSubstr okICY okICY = true)) ∧
      (hasSubstr okHTTP okICY = false → hasSubstr okICY okICY = false →
        pollStep 1 c5s (.recvData okICY) = .next c5s)) :=
  ⟨by decide, handshake_success_iff_substring 1 c5s okICY (by decide) (by decide)⟩

/-! ### C1 — the handshake retry budget is never decremented (code bug) -/

/-- With a silent peer every poll attempt is a negative `recv`; since
`timeout` is never incremented the loop never leaves the polling state. -/
theorem pollLoop_err_trace (g : Int) (t : Nat) (s : NtripClient) (n : Nat)
    (ht : t < socket_timeout) :
    pollLoop g t s (List.replicate n .recvErr) = .stillPolling s := by
  induction n with
  | zero => simp [pollLoop, ht]
  | succ n ih => simp [List.replicate_succ, pollLoop, ht, pollStep, ih]

/-- Freshly initialized client for the C1 theorem. -/
def c1s : NtripClient :=
  { host := [], port := [], mountpoint := [], username := [], password := [],
    sockfd := -1, gga := [], initialized := true, connected := false,
    authenticated := false, running := false, sockOpen := false, threadActive := false }

/-- Run environment for C1: resolution, connection and request send all
succeed, then the peer stays silent for `n` poll attempts. -/
def c1env (n : Nat) : RunEnv :=
  { resolveOk := true, socketRet := 3, connectOk := true, sendReqRet := 1,
    pollEvents := List.replicate n .recvErr, ggaSendRet := 1 }

/-- C1 (code bug): against a silent peer, `Run` does **not** return failure
after the 50-attempt budget — for every number `n` of silent attempts, even
far beyond the budget, the poll loop is still running (`none`) and the
socket has not been closed.  The source initializes
`int timeout = 0; while (timeout < socket_timeout)` but never increments
`timeout`, so the loop guard and the post-loop
`if (timeout >= socket_timeout)` failure branch are dead. -/
theorem run_silent_server_never_returns (n : Nat) :
    (NtripClient.Run c1s (c1env n)).2 = none ∧
    (NtripClient.Run c1s (c1env n)).1.sockOpen = true := by
  have hp : ∀ s : NtripClient, pollLoop 1 0 s (List.replicate n .recvErr) =
      .stillPolling s :=
    fun s => pollLoop_err_trace 1 0 s n (by norm_num [socket_timeout])
  unfold NtripClient.Run c1env c1s
  simp [NtripClient.IsRunning, hp]

/-! ### C2 — fatal streaming error: socket closed, failure returned, but
`running_` is never cleared -/

/-- Streaming-state client for the C2 counterexample. -/
def c2s : NtripClient :=
  { host := [], port := [], mountpoint := [], username := [], password := [],
    sockfd := 3, gga := [], initialized := true, connected := true,
    authenticated := true, running := true, sockOpen := true, threadActive := true }

/-- Fatal iteration (negative `recv`, `errno = EIO`) for the C2 counterexample. -/
def c2it : ThreadIter :=
  { stopReq := false, recvRet := -1, errnoVal := 5, elapsed := false, sendRet := 0 }

/-- C2 counterexample: after a fatal I/O error `ThreadHandler` does return
failure, but `IsRunning()` still returns `true` afterwards — the handler
never clears `running_`, contradicting the claim that the client is left
with `IsRunning()` false. -/
theorem threadhandler_fatal_running_flag_cex :
    (NtripClient.ThreadHandler c2s [c2it]).2 = some false ∧
    NtripClient.IsRunning (NtripClient.ThreadHandler c2s [c2it]).1 = true := by
  decide

/-- C2 as amended: for every fatal I/O error during streaming,
`ThreadHandler` closes the socket (`Cleanup` resets `sockfd_` to `-1`) and
returns failure, but the `running_` flag is left set, so `IsRunning()` still
reports `true` until an explicit `Stop()`; reconnecting requires a new
`Run()`. -/
theorem threadhandler_fatal_amended (s : NtripClient) (it : ThreadIter)
    (h1 : s.initialized = true) (h2 : s.connected = true)
    (h3 : s.authenticated = true) (h4 : 0 < s.sockfd) (h5 : s.running = true)
    (h6 : it.stopReq = false) (h7 : it.recvRet < 0) (h8 : it.errnoVal ≠ 0)
    (h9 : it.errnoVal ≠ EAGAIN) (h10 : it.errnoVal ≠ EWOULDBLOCK)
    (h11 : it.errnoVal ≠ EINTR) :
    NtripClient.ThreadHandler s [it] =
      ({ s with sockOpen := false, sockfd := -1 }, some false) ∧
    NtripClient.IsRunning { s with sockOpen := false, sockfd := -1 } = true := by
  have h4' : ¬ s.sockfd < 0 := by omega
  constructor
  · unfold NtripClient.ThreadHandler thLoop
    simp [h1, h2, h3, h4', h5, h6, h7, h8, h9, h10, h11, NtripClient.Cleanup, h4]
  · simp [NtripClient.IsRunning, h5]

/-- Witness for the amended C2 at a concrete fatal iteration. -/
theorem threadhandler_fatal_amended_witness :
    (c2s.initialized = true ∧ c2s.connected = true ∧ c2s.authenticated = true ∧
      0 < c2s.sockfd ∧ c2s.running = true ∧ c2it.stopReq = false ∧
      c2it.recvRet < 0 ∧ c2it.errnoVal ≠ 0 ∧ c2it.errnoVal ≠ EAGAIN ∧
      c2it.errnoVal ≠ EWOULDBLOCK ∧ c2it.errnoVal ≠ EINTR) ∧
    (NtripClient.ThreadHandler c2s [c2it] =
        ({ c2s with sockOpen := false, sockfd := -1 }, some false) ∧
      NtripClient.IsRunning { c2s with sockOpen := false, sockfd := -1 } = true) :=
  ⟨by decide,
   threadhandler_fatal_amended c2s c2it (by decide) (by decide) (by decide)
     (by decide) (by decide) (by decide) (by decide) (by decide) (by decide)
     (by decide) (by decide)⟩

/-! ### C6 — which negative receives are fatal in the streaming loop -/

/-- Streaming-state client for the C6 counterexample. -/
def c6s : NtripClient :=
  { host := [], port := [], mountpoint := [], username := [], password := [],
    sockfd := 3, gga := [], initialized := true, connected := true,
    authenticated := true, running := true, sockOpen := true, threadActive := true }

/-- Negative receive with `errno = 0` for the C6 counterexample. -/
def c6it : ThreadIter :=
  { stopReq := false, recvRet := -1, errnoVal := 0, elapsed := false, sendRet := 0 }

/-- C6 counterexample: a negative receive with `errno = 0` — which is not
`EAGAIN`, `EWOULDBLOCK` or `EINTR` — is absorbed by the source's extra
`errno != 0` conjunct: the loop neither closes the socket nor returns
failure, contradicting "for any other negative receive result the loop is
fatal". -/
theorem streaming_errno_zero_not_fatal_cex :
    (NtripClient.ThreadHandler c6s [c6it]).2 = none ∧
    (NtripClient.ThreadHandler c6s [c6it]).1.sockOpen = true := by
  decide

/-- C6 as amended: a negative receive whose `errno` is `EAGAIN`,
`EWOULDBLOCK`, `EINTR` — **or 0**, by the source's `errno != 0` guard — is
absorbed and the loop continues; for every other negative receive the loop
is fatal: it runs `Cleanup` and returns failure, and `Cleanup` closes the
socket whenever the descriptor is positive. -/
theorem streaming_negative_recv_amended (s : NtripClient) (it : ThreadIter)
    (rest : List ThreadIter) (hrun : s.running = true) (hstop : it.stopReq = false)
    (hneg : it.recvRet < 0) (hel : it.elapsed = false) :
    ((it.errnoVal = 0 ∨ it.errnoVal = EAGAIN ∨ it.errnoVal = EWOULDBLOCK ∨
        it.errnoVal = EINTR) → thLoop s (it :: rest) = thLoop s rest) ∧
    (it.errnoVal ≠ 0 → it.errnoVal ≠ EAGAIN → it.errnoVal ≠ EWOULDBLOCK →
      it.errnoVal ≠ EINTR →
      thLoop s (it :: rest) = (s.Cleanup, some false) ∧
        (0 < s.sockfd → (s.Cleanup).sockOpen = false ∧ (s.Cleanup).sockfd = -1)) := by
  constructor
  · intro h
    rcases h with h | h | h | h <;> simp [thLoop, hrun, hstop, hneg, hel, h]
  · intro h8 h9 h10 h11
    refine ⟨?_, fun hfd => ?_⟩
    · simp [thLoop, hrun, hstop, hneg, h8, h9, h10, h11]
    · simp [NtripClient.Cleanup, hfd]

/-- Witness for the amended C6: the absorbed `EAGAIN` case at a concrete
iteration. -/
def c6itAgain : ThreadIter :=
  { stopReq := false, recvRet := -1, errnoVal := 11, elapsed := false, sendRet := 0 }

/-- Witness for the amended C6 at concrete inputs. -/
theorem streaming_negative_recv_amended_witness :
    (c6s.running = true ∧ c6itAgain.stopReq = false ∧ c6itAgain.recvRet < 0 ∧
      c6itAgain.elapsed = false) ∧
    (((c6itAgain.errnoVal = 0 ∨ c6itAgain.errnoVal = EAGAIN ∨
        c6itAgain.errnoVal = EWOULDBLOCK ∨ c6itAgain.errnoVal = EINTR) →
        thLoop c6s [c6itAgain] = thLoop c6s []) ∧
      (c6itAgain.errnoVal ≠ 0 → c6itAgain.errnoVal ≠ EAGAIN →
        c6itAgain.errnoVal ≠ EWOULDBLOCK → c6itAgain.errnoVal ≠ EINTR →
        thLoop c6s [c6itAgain] = (c6s.Cleanup, some false) ∧
          (0 < c6s.sockfd →
            (c6s.Cleanup).sockOpen = false ∧ (c6s.Cleanup).sockfd = -1))) :=
  ⟨by decide,
   streaming_negative_recv_amended c6s c6itAgain [] (by decide) (by decide)
     (by decide) (by decide)⟩

/-! ### Poll-loop structure lemmas (shared helpers) -/

/-- A `next` outcome of the poll body leaves the state untouched. -/
theorem pollStep_next_eq (g : Int) (s : NtripClient) (ev : PollEvent)
    (s' : NtripClient) (h : pollStep g s ev = .next s') : s' = s := by
  cases ev with
  | recvErr => simp [pollStep] at h; exact h.symm
  | recvData r =>
    by_cases hl : 0 < r.length
    · by_cases hm : (hasSubstr okHTTP r || hasSubstr okICY r) = true
      · by_cases hg : s.gga = []
        · simp [pollStep, hl, hm, hg] at h
        · by_cases hgr : g ≤ 0 <;> simp [pollStep, hl, hm, hg, hgr] at h
      · simp [pollStep, hl, hm] at h; exact h.symm
    · simp [pollStep, hl] at h

/-- A `break` out of the poll body happens exactly with the authenticated
flag freshly set and nothing else changed. -/
theorem pollStep_break_eq (g : Int) (s : NtripClient) (ev : PollEvent)
    (s' : NtripClient) (h : pollStep g s ev = .exitBreak s') :
    s' = { s with authenticated := true } := by
  cases ev with
  | recvErr => simp [pollStep] at h
  | recvData r =>
    by_cases hl : 0 < r.length
    · by_cases hm : (hasSubstr okHTTP r || hasSubstr okICY r) = true
      · by_cases hg : s.gga = []
        · simp [pollStep, hl, hm, hg] at h
          simp only [hg]
          exact h.symm
        · by_cases hgr : g ≤ 0 <;> simp [pollStep, hl, hm, hg, hgr] at h
          exact h.symm
      · simp [pollStep, hl, hm] at h
    · simp [pollStep, hl] at h

/-- A `return` from inside the poll loop always returns `false`. -/
theorem pollStep_return_false (g : Int) (s : NtripClient) (ev : PollEvent)
    (s' : NtripClient) (b : Bool) (h : pollStep g s ev = .exitReturn s' b) :
    b = false := by
  cases ev with
  | recvErr => simp [pollStep] at h
  | recvData r =>
    by_cases hl : 0 < r.length
    · by_cases hm : (hasSubstr okHTTP r || hasSubstr okICY r) = true
      · by_cases hg : s.gga = []
        · simp [pollStep, hl, hm, hg] at h
        · by_cases hgr : g ≤ 0 <;> simp [pollStep, hl, hm, hg, hgr] at h
          exact h.2
      · simp [pollStep, hl, hm] at h
    · simp [pollStep, hl] at h; exact h.2

/-- The poll loop finishes (thread-of-control `return`) only with `false`. -/
theorem pollLoop_finished_false (g : Int) (t : Nat) (s : NtripClient)
    (evs : List PollEvent) (s' : NtripClient) (b : Bool)
    (h : pollLoop g t s evs = .finished s' b) : b = false := by
  induction evs generalizing s with
  | nil => by_cases ht : t < socket_timeout <;> simp [pollLoop, ht] at h
  | cons ev rest ih =>
    by_cases ht : t < socket_timeout
    · rw [pollLoop, if_pos ht] at h
      cases hst : pollStep g s ev with
      | next s2 => rw [hst] at h; exact ih _ h
      | exitBreak s2 => rw [hst] at h; simp at h
      | exitReturn s2 b2 =>
        rw [hst] at h
        simp at h
        exact h.2.symm ▸ (pollStep_return_false g s ev s2 b2 hst)
  
    · rw [pollLoop, if_neg ht] at h; simp at h

/-- The poll loop breaks out only with the authenticated flag set, the rest
of the state untouched, and the (never-incremented) counter unchanged. -/
theorem pollLoop_brokeOut_eq (g : Int) (t : Nat) (s : NtripClient)
    (evs : List PollEvent) (s' : NtripClient) (t' : Nat)
    (h : pollLoop g t s evs = .brokeOut s' t') :
    s' = { s with authenticated := true } ∧ t' = t := by
  induction evs generalizing s with
  | nil => by_cases ht : t < socket_timeout <;> simp [pollLoop, ht] at h
  | cons ev rest ih =>
    by_cases ht : t < socket_timeout
    · rw [pollLoop, if_pos ht] at h
      cases hst : pollStep g s ev with
      | next s2 =>
        rw [hst] at h
        have h2 := ih s2 h
        rw [pollStep_next_eq g s ev s2 hst] at h2
        exact h2
      | exitBreak s2 =>
        rw [hst] at h
        simp at h
        exact ⟨h.1.symm ▸ pollStep_break_eq g s ev s2 hst, h.2.symm⟩
      | exitReturn s2 b2 => rw [hst] at h; simp at h
    · rw [pollLoop, if_neg ht] at h; simp at h

/-- A guard exit of the poll loop can only happen with the counter already
at or past the budget (so never from `Run`, which starts it at 0). -/
theorem pollLoop_guardExit_ge (g : Int) (t : Nat) (s : NtripClient)
    (evs : List PollEvent) (s' : NtripClient) (t' : Nat)
    (h : pollLoop g t s evs = .guardExit s' t') : socket_timeout ≤ t' := by
  induction evs generalizing s with
  | nil =>
    by_cases ht : t < socket_timeout <;> simp [pollLoop, ht] at h
    omega
  | cons ev rest ih =>
    by_cases ht : t < socket_timeout
    · rw [pollLoop, if_pos ht] at h
      cases hst : pollStep g s ev with
      | next s2 => rw [hst] at h; exact ih _ h
      | exitBreak s2 => rw [hst] at h; simp at h
      | exitReturn s2 b2 => rw [hst] at h; simp at h
    · rw [pollLoop, if_neg ht] at h
      simp at h
      omega

/-! ### C3 — the socket-validity invariant over the state flags -/

/-- Fresh client for the C3 counterexample and witness. -/
def c3s0 : NtripClient :=
  { host := [], port := [], mountpoint := [], username := [], password := [],
    sockfd := -1, gga := [], initialized := true, connected := false,
    authenticated := false, running := false, sockOpen := false, threadActive := false }

/-- Environment for a fully successful `Run` (handshake answered with the
HTTP success line, empty GGA buffer). -/
def c3env : RunEnv :=
  { resolveOk := true, socketRet := 3, connectOk := true, sendReqRet := 1,
    pollEvents := [.recvData okHTTP], ggaSendRet := 1 }

/-- The client after the successful `Run`. -/
def c3s1 : NtripClient := (NtripClient.Run c3s0 c3env).1

/-- A fatal streaming iteration (negative `recv`, `errno = EIO`). -/
def c3it : ThreadIter :=
  { stopReq := false, recvRet := -1, errnoVal := 5, elapsed := false, sendRet := 0 }

/-- The client after the streaming loop hits the fatal error. -/
def c3s2 : NtripClient := (NtripClient.ThreadHandler c3s1 [c3it]).1

/-- C3 counterexample: a reachable state (fresh client, successful `Run`,
then one fatal receive in the streaming loop) in which `connected_`,
`authenticated_` and even `running_` are all still set while
`sockfd_ = -1`: `Cleanup` resets the descriptor but no operation ever
clears the flags, so the claimed invariant does not hold in every reachable
state. -/
theorem socket_invariant_cex :
    c3s2.connected = true ∧ c3s2.authenticated = true ∧
    c3s2.running = true ∧ c3s2.sockfd = -1 := by
  decide

/-- C3 as amended: `Run` reports success only when it leaves the client with
a non-negative (open) socket and all state flags set. -/
theorem run_success_invariant (s : NtripClient) (env : RunEnv)
    (h : (NtripClient.Run s env).2 = some true) :
    0 ≤ (NtripClient.Run s env).1.sockfd ∧
    (NtripClient.Run s env).1.connected = true ∧
    (NtripClient.Run s env).1.authenticated = true ∧
    (NtripClient.Run s env).1.running = true ∧
    (NtripClient.Run s env).1.sockOpen = true := by
  by_cases hre : env.resolveOk
  case neg => simp [NtripClient.Run, hre] at h
  by_cases hsk : env.socketRet < 0
  · simp [NtripClient.Run, hre, hsk] at h
  by_cases hco : env.connectOk
  case neg => simp [NtripClient.Run, hre, hsk, hco] at h
  by_cases hsr : env.sendReqRet ≤ 0
  · simp [NtripClient.Run, hre, hsk, hco, hsr] at h
  simp only [NtripClient.Run, hre, hsk, hco, hsr] at h ⊢
  simp only [Bool.not_true, Bool.false_eq_true, if_false, ite_false, ite_true] at h ⊢
  split at h
  case _ s' heq => simp at h
  case _ s' b heq =>
    rw [pollLoop_finished_false _ _ _ _ _ _ heq] at h
    simp at h
  case _ s' t' heq =>
    have := pollLoop_guardExit_ge _ _ _ _ _ _ heq
    rw [if_pos this] at h
    simp at h
  case _ s' t' heq =>
    obtain ⟨hs', ht'⟩ := pollLoop_brokeOut_eq _ _ _ _ _ _ heq
    have hlt : ¬ socket_timeout ≤ t' := by
      rw [ht']
      simp [socket_timeout]
    have hge : 0 ≤ env.socketRet := by omega
    rw [if_neg hlt]
    subst hs'
    simp [hge]

/-- Witness for the amended C3 at the concrete successful run. -/
theorem run_success_invariant_witness :
    (NtripClient.Run c3s0 c3env).2 = some true ∧
    (0 ≤ (NtripClient.Run c3s0 c3env).1.sockfd ∧
      (NtripClient.Run c3s0 c3env).1.connected = true ∧
      (NtripClient.Run c3s0 c3env).1.authenticated = true ∧
      (NtripClient.Run c3s0 c3env).1.running = true ∧
      (NtripClient.Run c3s0 c3env).1.sockOpen = true) :=
  ⟨by decide, run_success_invariant c3s0 c3env (by decide)⟩

/-! ### C9 — actions taken on handshake success -/

/-- Run environment for the C9 claim: one successful handshake response. -/
def c9env (fd sr g : Int) (r : List Char) : RunEnv :=
  { resolveOk := true, socketRet := fd, connectOk := true, sendReqRet := sr,
    pollEvents := [.recvData r], ggaSendRet := g }

/-- C9: on a successful handshake response the client is marked
authenticated and then: with a non-empty position-report buffer the buffer
is sent at once and a send failure (`ret <= 0`) is fatal — socket closed,
`Run` returns `false`; with an empty buffer this is no error and `Run`
breaks out of the loop, sets `running_` and starts the streaming task,
returning `true`. -/
theorem handshake_success_actions (g : Int) (s : NtripClient) (r : List Char)
    (hok : hasSubstr okHTTP r = true ∨ hasSubstr okICY r = true) :
    (s.gga = [] →
      pollStep g s (.recvData r) = .exitBreak { s with authenticated := true }) ∧
    (s.gga ≠ [] → 0 < g →
      pollStep g s (.recvData r) = .exitBreak { s with authenticated := true }) ∧
    (s.gga ≠ [] → g ≤ 0 →
      pollStep g s (.recvData r) =
        .exitReturn { s with authenticated := true, sockOpen := false } false) ∧
    (∀ fd sr : Int, s.running = false → s.gga = [] → ¬ fd < 0 → ¬ sr ≤ 0 →
      (NtripClient.Run s (c9env fd sr g r)).2 = some true ∧
      (NtripClient.Run s (c9env fd sr g r)).1.running = true ∧
      (NtripClient.Run s (c9env fd sr g r)).1.authenticated = true) := by
  have hr : r ≠ [] := by
    rintro rfl
    rcases hok with hok | hok <;> revert hok <;> decide
  have hlen : 0 < r.length := List.length_pos.mpr hr
  have hm : (hasSubstr okHTTP r || hasSubstr okICY r) = true := by
    rcases hok with h | h <;> simp [h]
  refine ⟨fun hg => ?_, fun hg hgpos => ?_, fun hg hgle => ?_,
    fun fd sr hrun hg hfd hsr => ?_⟩
  · simp [pollStep, hlen, hm, hg]
  · have hgle : ¬ g ≤ 0 := by omega
    simp [pollStep, hlen, hm, hg, hgle]
  · simp [pollStep, hlen, hm, hg, hgle]
  · simp [NtripClient.Run, NtripClient.IsRunning, c9env, hrun, hfd, hsr,
      pollLoop, pollStep, socket_timeout, hlen, hm, hg]

/-- Concrete client (empty GGA buffer) for the C9 witness. -/
def c9s : NtripClient :=
  { host := [], port := [], mountpoint := [], username := [], password := [],
    sockfd := -1, gga := [], initialized := true, connected := false,
    authenticated := false, running := false, sockOpen := false, threadActive := false }

/-- Witness for C9 at a concrete success chunk. -/
theorem handshake_success_actions_witness :
    (hasSubstr okHTTP okHTTP = true ∨ hasSubstr okICY okHTTP = true) ∧
    ((c9s.gga = [] →
        pollStep 1 c9s (.recvData okHTTP) =
          .exitBreak { c9s with authenticated := true }) ∧
      (c9s.gga ≠ [] → 0 < (1 : Int) →
        pollStep 1 c9s (.recvData okHTTP) =
          .exitBreak { c9s with authenticated := true }) ∧
      (c9s.gga ≠ [] → (1 : Int) ≤ 0 →
        pollStep 1 c9s (.recvData okHTTP) =
          .exitReturn { c9s with authenticated := true, sockOpen := false } false) ∧
      (∀ fd sr : Int, c9s.running = false → c9s.gga = [] → ¬ fd < 0 → ¬ sr ≤ 0 →
        (NtripClient.Run c9s (c9env fd sr 1 okHTTP)).2 = some true ∧
        (NtripClient.Run c9s (c9env fd sr 1 okHTTP)).1.running = true ∧
        (NtripClient.Run c9s (c9env fd sr 1 okHTTP)).1.authenticated = true)) :=
  ⟨by decide, handshake_success_actions 1 c9s okHTTP (by decide)⟩

/-! ### C4 — `base64_encode` is standard Base64 -/

theorem emitF_two (val : Nat) : emitF 8 val 2 = [b64nth (val / 4 % 64)] := by
  norm_num [emitF, show ((2 : Int)).toNat = 2 from rfl]

theorem emitF_four (val : Nat) : emitF 10 val 4 = [b64nth (val / 16 % 64)] := by
  norm_num [emitF, show ((4 : Int)).toNat = 4 from rfl]

theorem emitF_six (val : Nat) :
    emitF 12 val 6 = [b64nth (val / 64 % 64), b64nth (val % 64)] := by
  norm_num [emitF, show ((6 : Int)).toNat = 6 from rfl, show ((0 : Int)).toNat = 0 from rfl]

-- arithmetic lemmas
theorem arith1 (val a : Nat) (ha : a < 256) :
    (val * 256 + a) % 4294967296 / 4 % 64 = a / 4 := by omega

theorem arith2 (val a b : Nat) (ha : a < 256) (hb : b < 256) :
    ((val * 256 + a) % 4294967296 * 256 + b) % 4294967296 / 16 % 64
      = a % 4 * 16 + b / 16 := by omega

theorem arith3 (val a b c : Nat) (ha : a < 256) (hb : b < 256) (hc : c < 256) :
    (((val * 256 + a) % 4294967296 * 256 + b) % 4294967296 * 256 + c) % 4294967296
        / 64 % 64 = b % 16 * 4 + c / 64 := by omega

theorem arith4 (val a b c : Nat) (ha : a < 256) (hb : b < 256) (hc : c < 256) :
    (((val * 256 + a) % 4294967296 * 256 + b) % 4294967296 * 256 + c) % 4294967296
        % 64 = c % 64 := by omega

theorem tail1 (val a : Nat) (ha : a < 256) :
    (val * 256 + a) % 4294967296 * 256 % 4294967296 / 16 % 64 = a % 4 * 16 := by
  omega

theorem tail2 (val a b : Nat) (ha : a < 256) (hb : b < 256) :
    ((val * 256 + a) % 4294967296 * 256 + b) % 4294967296 * 256 % 4294967296
        / 64 % 64 = b % 16 * 4 := by omega

-- decode-side facts
theorem b64val_nth : ∀ v : Nat, v < 64 → b64val (b64nth v) = v := by decide

theorem b64nth_ne_pad : ∀ v : Nat, v < 64 → b64nth v ≠ '=' := by decide

theorem b64nth_mem_chars : ∀ v : Nat, v < 64 → b64nth v ∈ b64chars := by decide

theorem darith2 (dval a b : Nat) (ha : a < 256) (hb : b < 256) :
    ((dval * 64 + a / 4) * 64 + (a % 4 * 16 + b / 16)) / 16 % 256 = a := by omega

theorem darith3 (dval a b c : Nat) (ha : a < 256) (hb : b < 256) (hc : c < 256) :
    (((dval * 64 + a / 4) * 64 + (a % 4 * 16 + b / 16)) * 64 + (b % 16 * 4 + c / 64))
        / 4 % 256 = b := by omega

theorem darith4 (dval a b c : Nat) (ha : a < 256) (hb : b < 256) (hc : c < 256) :
    ((((dval * 64 + a / 4) * 64 + (a % 4 * 16 + b / 16)) * 64 + (b % 16 * 4 + c / 64))
        * 64 + c % 64) % 256 = c := by omega

theorem dtail2 (dval a : Nat) (ha : a < 256) :
    ((dval * 64 + a / 4) * 64 + a % 4 * 16) / 16 % 256 = a := by omega

theorem dtail3 (dval a b : Nat) (ha : a < 256) (hb : b < 256) :
    (((dval * 64 + a / 4) * 64 + (a % 4 * 16 + b / 16)) * 64 + b % 16 * 4)
        / 4 % 256 = b := by omega

theorem b64run_m6 (a : Nat) (cs : List Nat) (val : Nat) :
    b64run (a :: cs) val (-6) =
      (b64nth ((val * 256 + a) % 4294967296 / 4 % 64) ::
          (b64run cs ((val * 256 + a) % 4294967296) (-4)).1,
        (b64run cs ((val * 256 + a) % 4294967296) (-4)).2) := by
  simp only [b64run]
  norm_num [show ((8 : Int)).toNat = 8 from rfl,
    show ((-6 : Int) + 8) = 2 from by norm_num, emitF_two,
    show dropBitsF 8 2 = -4 from rfl]

theorem b64run_m4 (a : Nat) (cs : List Nat) (val : Nat) :
    b64run (a :: cs) val (-4) =
      (b64nth ((val * 256 + a) % 4294967296 / 16 % 64) ::
          (b64run cs ((val * 256 + a) % 4294967296) (-2)).1,
        (b64run cs ((val * 256 + a) % 4294967296) (-2)).2) := by
  simp only [b64run]
  norm_num [show ((10 : Int)).toNat = 10 from rfl,
    show ((-4 : Int) + 8) = 4 from by norm_num, emitF_four,
    show dropBitsF 10 4 = -2 from rfl]

theorem b64run_m2 (a : Nat) (cs : List Nat) (val : Nat) :
    b64run (a :: cs) val (-2) =
      (b64nth ((val * 256 + a) % 4294967296 / 64 % 64) ::
          b64nth ((val * 256 + a) % 4294967296 % 64) ::
          (b64run cs ((val * 256 + a) % 4294967296) (-6)).1,
        (b64run cs ((val * 256 + a) % 4294967296) (-6)).2) := by
  simp only [b64run]
  norm_num [show ((12 : Int)).toNat = 12 from rfl,
    show ((-2 : Int) + 8) = 6 from by norm_num, emitF_six,
    show dropBitsF 12 6 = -6 from rfl]

theorem encodeFrom_nil (val : Nat) : encodeFrom val [] = [] := by
  norm_num [encodeFrom, b64run]

theorem encodeFrom_cons3 (val a b c : Nat) (rest : List Nat)
    (ha : a < 256) (hb : b < 256) (hc : c < 256) :
    encodeFrom val (a :: b :: c :: rest) =
      b64nth (a / 4) :: b64nth (a % 4 * 16 + b / 16) ::
      b64nth (b % 16 * 4 + c / 64) :: b64nth (c % 64) ::
      encodeFrom
        ((((val * 256 + a) % 4294967296 * 256 + b) % 4294967296 * 256 + c) %
          4294967296) rest := by
  simp only [encodeFrom, b64run_m6, b64run_m4, b64run_m2]
  rw [arith1 val a ha, arith2 val a b ha hb, arith3 val a b c ha hb hc,
    arith4 val a b c ha hb hc]
  rcases hr : b64run rest
      ((((val * 256 + a) % 4294967296 * 256 + b) % 4294967296 * 256 + c) %
        4294967296) (-6) with ⟨ro, rv, rb⟩
  by_cases hrb : rb > -6 <;>
    simp [hrb, List.append_assoc, Nat.add_mod_left, List.length_append] <;>
    omega

theorem encodeFrom_one (val a : Nat) (ha : a < 256) :
    encodeFrom val [a] = [b64nth (a / 4), b64nth (a % 4 * 16), '=', '='] := by
  simp only [encodeFrom, b64run_m6]
  simp only [b64run]
  norm_num [show ((4 : Int)).toNat = 4 from rfl, List.replicate, List.cons.injEq]
  exact ⟨congrArg b64nth (by omega), congrArg b64nth (by omega)⟩

theorem encodeFrom_two (val a b : Nat) (ha : a < 256) (hb : b < 256) :
    encodeFrom val [a, b] =
      [b64nth (a / 4), b64nth (a % 4 * 16 + b / 16), b64nth (b % 16 * 4), '='] := by
  simp only [encodeFrom, b64run_m6, b64run_m4]
  simp only [b64run]
  norm_num [show ((6 : Int)).toNat = 6 from rfl, List.replicate, List.cons.injEq]
  exact ⟨congrArg b64nth (by omega), congrArg b64nth (by omega),
    congrArg b64nth (by omega)⟩

theorem decodeCore_group (dval a b c : Nat) (z : List Char)
    (ha : a < 256) (hb : b < 256) (hc : c < 256) :
    decodeCore (b64nth (a / 4) :: b64nth (a % 4 * 16 + b / 16) ::
        b64nth (b % 16 * 4 + c / 64) :: b64nth (c % 64) :: z) dval 0 =
      a :: b :: c ::
        decodeCore z
          ((((dval * 64 + a / 4) * 64 + (a % 4 * 16 + b / 16)) * 64 +
              (b % 16 * 4 + c / 64)) * 64 + c % 64) 0 := by
  have h1 : a / 4 < 64 := by omega
  have h2 : a % 4 * 16 + b / 16 < 64 := by omega
  have h3 : b % 16 * 4 + c / 64 < 64 := by omega
  have h4 : c % 64 < 64 := by omega
  simp only [decodeCore, b64val_nth _ h1, b64val_nth _ h2, b64val_nth _ h3,
    b64val_nth _ h4]
  norm_num [darith2 dval a b ha hb, darith3 dval a b c ha hb hc,
    darith4 dval a b c ha hb hc]

theorem decodeCore_tail1 (dval a : Nat) (ha : a < 256) :
    decodeCore [b64nth (a / 4), b64nth (a % 4 * 16)] dval 0 = [a] := by
  have h1 : a / 4 < 64 := by omega
  have h2 : a % 4 * 16 < 64 := by omega
  simp only [decodeCore, b64val_nth _ h1, b64val_nth _ h2]
  norm_num [dtail2 dval a ha]

theorem decodeCore_tail2 (dval a b : Nat) (ha : a < 256) (hb : b < 256) :
    decodeCore [b64nth (a / 4), b64nth (a % 4 * 16 + b / 16), b64nth (b % 16 * 4)]
        dval 0 = [a, b] := by
  have h1 : a / 4 < 64 := by omega
  have h2 : a % 4 * 16 + b / 16 < 64 := by omega
  have h3 : b % 16 * 4 < 64 := by omega
  simp only [decodeCore, b64val_nth _ h1, b64val_nth _ h2, b64val_nth _ h3]
  norm_num [darith2 dval a b ha hb, dtail3 dval a b ha hb]

theorem filter_pad_cons (v : Nat) (hv : v < 64) (l : List Char) :
    (b64nth v :: l).filter (fun ch => ch ≠ '=') =
      b64nth v :: l.filter (fun ch => ch ≠ '=') := by
  simp [List.filter_cons, b64nth_ne_pad v hv]

theorem decode_encodeFrom :
    ∀ (x : List Nat) (val dval : Nat), (∀ u ∈ x, u < 256) →
      decodeCore ((encodeFrom val x).filter (fun ch => ch ≠ '=')) dval 0 = x
  | [], val, dval, _ => by simp [encodeFrom_nil, decodeCore]
  | [a], val, dval, h => by
      have ha : a < 256 := h a (by simp)
      have h1 : a / 4 < 64 := by omega
      have h2 : a % 4 * 16 < 64 := by omega
      rw [encodeFrom_one val a ha, filter_pad_cons _ h1, filter_pad_cons _ h2]
      simp only [List.filter_cons, List.filter_nil]
      norm_num
      exact decodeCore_tail1 dval a ha
  | [a, b], val, dval, h => by
      have ha : a < 256 := h a (by simp)
      have hb : b < 256 := h b (by simp)
      have h1 : a / 4 < 64 := by omega
      have h2 : a % 4 * 16 + b / 16 < 64 := by omega
      have h3 : b % 16 * 4 < 64 := by omega
      rw [encodeFrom_two val a b ha hb, filter_pad_cons _ h1, filter_pad_cons _ h2,
        filter_pad_cons _ h3]
      simp only [List.filter_cons, List.filter_nil]
      norm_num
      exact decodeCore_tail2 dval a b ha hb
  | a :: b :: c :: rest, val, dval, h => by
      have ha : a < 256 := h a (by simp)
      have hb : b < 256 := h b (by simp)
      have hc : c < 256 := h c (by simp)
      have h1 : a / 4 < 64 := by omega
      have h2 : a % 4 * 16 + b / 16 < 64 := by omega
      have h3 : b % 16 * 4 + c / 64 < 64 := by omega
      have h4 : c % 64 < 64 := by omega
      rw [encodeFrom_cons3 val a b c rest ha hb hc, filter_pad_cons _ h1,
        filter_pad_cons _ h2, filter_pad_cons _ h3, filter_pad_cons _ h4,
        decodeCore_group dval a b c _ ha hb hc,
        decode_encodeFrom rest
          ((((val * 256 + a) % 4294967296 * 256 + b) % 4294967296 * 256 + c) %
            4294967296)
          ((((dval * 64 + a / 4) * 64 + (a % 4 * 16 + b / 16)) * 64 +
              (b % 16 * 4 + c / 64)) * 64 + c % 64)
          (fun u hu => h u (by simp [hu]))]
termination_by x => x.length

theorem encodeFrom_length_mod4 (val : Nat) (x : List Nat) :
    (encodeFrom val x).length % 4 = 0 := by
  unfold encodeFrom
  rcases b64run x val (-6) with ⟨ro, rv, rb⟩
  by_cases hrb : rb > -6 <;> simp [hrb, List.length_append] <;> omega

theorem emitF_mem (fuel val : Nat) (valb : Int) (ch : Char)
    (h : ch ∈ emitF fuel val valb) : ∃ v, v < 64 ∧ ch = b64nth v := by
  induction fuel generalizing valb with
  | zero => simp [emitF] at h
  | succ fuel ih =>
    by_cases hv : 0 ≤ valb
    · rw [emitF, if_pos hv] at h
      rcases List.mem_cons.mp h with h | h
      · exact ⟨val / 2 ^ valb.toNat % 64, Nat.mod_lt _ (by norm_num), h⟩
      · exact ih (valb - 6) h
    · rw [emitF, if_neg hv] at h
      simp at h

theorem b64run_mem (x : List Nat) (val : Nat) (valb : Int) (ch : Char)
    (h : ch ∈ (b64run x val valb).1) : ∃ v, v < 64 ∧ ch = b64nth v := by
  induction x generalizing val valb with
  | nil => simp [b64run] at h
  | cons c cs ih =>
    simp only [b64run] at h
    rcases List.mem_append.mp h with h | h
    · exact emitF_mem _ _ _ _ h
    · exact ih _ _ h

theorem encodeFrom_mem (val : Nat) (x : List Nat) (ch : Char)
    (h : ch ∈ encodeFrom val x) : ch ∈ b64chars ∨ ch = '=' := by
  unfold encodeFrom at h
  rcases hr : b64run x val (-6) with ⟨ro, rv, rb⟩
  rw [hr] at h
  rcases List.mem_append.mp h with h | h
  · by_cases hrb : rb > -6
    · rw [if_pos hrb] at h
      rcases List.mem_append.mp h with h | h
      · obtain ⟨v, hv, rfl⟩ := b64run_mem x val (-6) ch (by rw [hr]; exact h)
        exact Or.inl (b64nth_mem_chars v hv)
      · simp at h
        subst h
        exact Or.inl (b64nth_mem_chars _ (Nat.mod_lt _ (by norm_num)))
    · rw [if_neg hrb] at h
      obtain ⟨v, hv, rfl⟩ := b64run_mem x val (-6) ch (by rw [hr]; exact h)
      exact Or.inl (b64nth_mem_chars v hv)
  · exact Or.inr (List.eq_of_mem_replicate h)

/-- C4: for every byte string, `base64_encode` produces the standard Base64
encoding: standard decoding recovers the input, the output length is a
multiple of 4, and every output character is from the Base64 alphabet or is
the `'='` pad. -/
theorem base64_encode_spec (x : List Nat) (hx : ∀ u ∈ x, u < 256) :
    base64_decode (base64_encode x) = x ∧
    (base64_encode x).length % 4 = 0 ∧
    ∀ ch ∈ base64_encode x, ch ∈ b64chars ∨ ch = '=' :=
  ⟨decode_encodeFrom x 0 0 hx, encodeFrom_length_mod4 0 x,
    fun ch hch => encodeFrom_mem 0 x ch hch⟩

/-- Witness for C4 at the bytes of `"Man"` (whose Base64 form is `"TWFu"`). -/
theorem base64_encode_spec_witness :
    (∀ u ∈ [(77 : Nat), 97, 110], u < 256) ∧
    (base64_decode (base64_encode [77, 97, 110]) = [77, 97, 110] ∧
      (base64_encode [77, 97, 110]).length % 4 = 0 ∧
      ∀ ch ∈ base64_encode [77, 97, 110], ch ∈ b64chars ∨ ch = '=') :=
  ⟨by decide, base64_encode_spec [77, 97, 110] (by decide)⟩
